import Mathlib

/-!
Verification of the ongoku-cli core against its specification.

This file shallowly embeds the relevant parts of the TypeScript source:

* the project resolver, from findProject in src/utils/common.ts;
* the credential validity check, from GitClient.isTokenValid;
* the schema YAML-to-JSON decode fallback, from the push command;
* the git engine operations: clone, pull, commitAndPush and
  configureWithToken of GitClient, each fallible external git call being
  supplied as an oracle value of type Except;
* the push command orchestration, from src/commands/push.ts.

JavaScript peculiarities are modelled explicitly where behaviour depends on
them: truthiness of empty strings and of the number zero, the coercion of
the undefined value to the string "undefined" inside String.prototype.includes,
and property access on objects that lack the accessed property.
-/

namespace Ongoku

/-! ## Generic string helpers (JS String.prototype semantics) -/

/-- Does the first list occur as a prefix of the second, under BEq. -/
def startsSeg {α : Type} [BEq α] : List α → List α → Bool
  | [], _ => true
  | _ :: _, [] => false
  | a :: as, b :: bs => a == b && startsSeg as bs

/-- Does the first list occur contiguously somewhere inside the second. -/
def hasSeg {α : Type} [BEq α] (sub : List α) : List α → Bool
  | [] => sub.isEmpty
  | b :: bs => startsSeg sub (b :: bs) || hasSeg sub bs

/-- JS s.includes(sub): does sub occur as a contiguous substring of s. -/
def strIncludes (s sub : String) : Bool :=
  hasSeg sub.toList s.toList

/-- Split a character list on each non-overlapping occurrence of the
non-empty separator, scanning left to right: the semantics of JS
String.prototype.split with a non-empty string separator. The first
argument is fuel, always called with more fuel than the list is long, so
the exhaustion branch is never reached. -/
def splitFuel (sep : List Char) : Nat → List Char → List Char → List (List Char)
  | 0, l, acc => [acc.reverse ++ l]
  | _ + 1, [], acc => [acc.reverse]
  | fuel + 1, c :: cs, acc =>
    if startsSeg sep (c :: cs) then
      acc.reverse :: splitFuel sep fuel (List.drop sep.length (c :: cs)) []
    else
      splitFuel sep fuel cs (c :: acc)

/-- JS s.split(sep) for a non-empty string separator. -/
def jsSplit (s sep : String) : List String :=
  (splitFuel sep.toList (s.toList.length + 1) s.toList []).map String.mk

/-- JS toLowerCase restricted to ASCII, which covers the identifiers the
tool compares; applied characterwise. -/
def strLower (s : String) : String :=
  String.mk (s.toList.map Char.toLower)

/-- JS coercion applied when an Option-like value is interpolated into a
string position: undefined becomes the literal string "undefined". -/
def jsUndefToStr : Option String → String
  | none => "undefined"
  | some s => s

/-! ## Project resolver (findProject, src/utils/common.ts lines 136-181) -/

/-- A project record as returned by the remote listing. The source treats
records dynamically; the fields read by findProject are id, name and
github_repo_url (the latter possibly absent). -/
structure Project where
  id : String
  name : String
  github_repo_url : Option String
  deriving DecidableEq

/-- A hexadecimal digit, upper or lower case, as accepted by the character
class of the id regex in findProject. -/
def isHexChar (c : Char) : Bool :=
  c.isDigit || (decide ('a' ≤ c) && decide (c ≤ 'f'))
    || (decide ('A' ≤ c) && decide (c ≤ 'F'))

/-- A run of exactly n hex digits. -/
def isHexRun (s : String) (n : Nat) : Bool :=
  s.length == n && s.toList.all isHexChar

/-- Models the test of the anchored regex used at common.ts line 150:
eight, four, four, four and twelve hex digits joined by single hyphens,
case-insensitive. Splitting on the hyphen gives exactly five groups iff the
string has exactly four hyphens, and each group must be pure hex of the
stated length, which is precisely the language of the regex. -/
def isUuidShape (s : String) : Bool :=
  match jsSplit s "-" with
  | [a, b, c, d, e] =>
    isHexRun a 8 && isHexRun b 4 && isHexRun c 4 && isHexRun d 4 && isHexRun e 12
  | _ => false

/-- JS url.split("github.com/")[1]: the second element of the split, absent
when the separator does not occur in the url. -/
def githubPathSegment (url : String) : Option String :=
  (jsSplit url "github.com/").get? 1

/-- The predicate of resolver step 2 (common.ts lines 156-157):
p.github_repo_url && remoteUrl.includes(p.github_repo_url.split(...)[1]).
An absent or empty github_repo_url is falsy and never matches; when the
split yields no second element, JS passes undefined to includes, which
coerces it to the literal string "undefined". -/
def urlMatches (remoteUrl : String) (p : Project) : Bool :=
  match p.github_repo_url with
  | none => false
  | some url =>
    if url = "" then false
    else strIncludes remoteUrl (jsUndefToStr (githubPathSegment url))

/-- findProject strategy chain (common.ts lines 147-164): first by id when
the derived name has the UUID shape, then by remote URL when one is present
(JS truthiness: the empty string does not count), finally by
case-insensitive name equality. -/
def findProject (projects : List Project) (projectName : String)
    (remoteUrl : Option String) : Option Project :=
  let step1 : Option Project :=
    if isUuidShape projectName then
      projects.find? (fun p => p.id == projectName)
    else none
  match step1 with
  | some p => some p
  | none =>
    let step2 : Option Project :=
      match remoteUrl with
      | none => none
      | some ru => if ru = "" then none else projects.find? (urlMatches ru)
    match step2 with
    | some p => some p
    | none => projects.find? (fun p => strLower p.name == strLower projectName)

/-- Modelled from the spec, for comparison only: the path segment of a
repository URL, "the part after the host" — strip the https scheme, then
drop the host component up to the first slash. -/
def pathAfterHost (url : String) : String :=
  let cs := url.toList
  let rest := if startsSeg "https://".toList cs then cs.drop 8 else cs
  String.mk ((rest.dropWhile (fun c => !(c == '/'))).drop 1)

/-! ## Credential validity (GitClient.isTokenValid, common.ts lines 639-645) -/

/-- The five minute safety buffer, in milliseconds. -/
def tokenBufferMs : Int := 5 * 60 * 1000

/-- GitClient.isTokenValid. The stored expiry is null until
configureWithToken has run, modelled as none. The JS guard tests
truthiness, so a numeric expiry of zero is also treated as absent.
Otherwise the check is a pure comparison of Date.now() against the expiry
minus the buffer; it performs no effect and cannot throw. -/
def isTokenValid (tokenExpiry : Option Int) (now : Int) : Bool :=
  match tokenExpiry with
  | none => false
  | some e => if e = 0 then false else decide (now < e - tokenBufferMs)

/-! ## Schema decode fallback (push.ts lines 74-87) -/

/-- The error message raised when neither decode succeeds. -/
def schemaFormatErrorMsg : String := "Schema file is neither valid YAML nor JSON"

/-- The parsed schema document; the core treats it opaquely and only
forwards it to the remote service. -/
inductive SchemaDoc where
  | mk (repr : String)
  deriving DecidableEq

/-- The decode chain of push.ts lines 77-87: try the YAML loader, on any
failure try the JSON parser, and when both fail raise the schema format
error. The two parsers are external library collaborators (js-yaml and the
built-in JSON), supplied here as arguments. -/
def decodeSchema {α : Type} (yamlLoad jsonParse : String → Except String α)
    (content : String) : Except String α :=
  match yamlLoad content with
  | .ok s => .ok s
  | .error _ =>
    match jsonParse content with
    | .ok s => .ok s
    | .error _ => .error schemaFormatErrorMsg

/-! ## Git engine (GitClient, src/utils/common.ts lines 406-646)

Each call into the simple-git driver may fail independently; a driver value
records the outcome the driver would produce at each call site of one
commitAndPush invocation. Errors are carried as strings. The observable
behaviour of an operation is its returned value together with a trace of
the git calls it issued and the console messages it produced. -/

/-- Observable events of one git engine operation: driver calls and
console or spinner output. -/
inductive GEvent where
  | statusCall
  | add
  | commitMsg (m : String)
  | pushAttempt
  | stashSave
  | pullFFOnly
  | stashPop
  | info (s : String)
  | succeed (s : String)
  | failMsg (s : String)
  | logMsg (s : String)
  | errorDetails (e : String)
  deriving DecidableEq

/-- Driver outcomes for the call sites of one commitAndPush invocation, in
source order. The status outcome carries isClean() of the returned status.
The result of the best-effort stash pop in the recovery failure path is
discarded by the source (the catch around it is empty), so it has no
field here. -/
structure GitDriver where
  isRepo : Bool
  status : Except String Bool
  add1 : Except String Unit
  commit1 : Except String Unit
  push1 : Except String Unit
  stash : Except String Unit
  pullFF : Except String Unit
  stashPop1 : Except String Unit
  add2 : Except String Unit
  commit2 : Except String Unit
  push2 : Except String Unit

/-- The fallback commit message hard-coded at common.ts line 563. -/
def fallbackCommitMsg : String := "Update from Ongoku CLI"

/-- The inner try of the recovery path (common.ts lines 549-566): stash,
fast-forward-only pull, stash pop, re-add, re-commit with the fallback
message, push again. The first failing step aborts the sequence with its
error; the trace records the calls issued up to and including it. -/
def recoverySeq (d : GitDriver) : Except String Unit × List GEvent :=
  match d.stash with
  | .error e => (.error e, [.stashSave])
  | .ok _ =>
    match d.pullFF with
    | .error e => (.error e, [.stashSave, .pullFFOnly])
    | .ok _ =>
      match d.stashPop1 with
      | .error e => (.error e, [.stashSave, .pullFFOnly, .stashPop])
      | .ok _ =>
        match d.add2 with
        | .error e => (.error e, [.stashSave, .pullFFOnly, .stashPop, .add])
        | .ok _ =>
          match d.commit2 with
          | .error e =>
            (.error e,
              [.stashSave, .pullFFOnly, .stashPop, .add, .commitMsg fallbackCommitMsg])
          | .ok _ =>
            match d.push2 with
            | .error e =>
              (.error e,
                [.stashSave, .pullFFOnly, .stashPop, .add,
                  .commitMsg fallbackCommitMsg, .pushAttempt])
            | .ok _ =>
              (.ok (),
                [.stashSave, .pullFFOnly, .stashPop, .add,
                  .commitMsg fallbackCommitMsg, .pushAttempt])

/-- The push attempt with its surrounding catch (common.ts lines 543-577).
On a push rejection the recovery sequence runs once; if the recovery
sequence itself fails at any step, a best-effort stash pop is attempted
(its own failure ignored, common.ts lines 569-573) and the original push
error, not the recovery error, is rethrown (line 575). -/
def pushPhase (d : GitDriver) : Except String Unit × List GEvent :=
  match d.push1 with
  | .ok _ => (.ok (), [.pushAttempt])
  | .error pushErr =>
    let head : List GEvent :=
      [.pushAttempt, .logMsg "Push failed, trying to pull changes first..."]
    match recoverySeq d with
    | (.ok _, tr) => (.ok (), head ++ tr)
    | (.error _, tr) => (.error pushErr, head ++ tr ++ [.stashPop])

/-- The body of the outer try of commitAndPush (common.ts lines 523-580):
repository check, status check with the clean early return, add, commit
with the caller's message, then the push phase. An error value is one that
reaches the outer catch. -/
def commitAndPushBody (d : GitDriver) (message : String) :
    Except String Bool × List GEvent :=
  if d.isRepo = false then
    (.ok false, [.failMsg "Not a git repository"])
  else
    match d.status with
    | .error e => (.error e, [.statusCall])
    | .ok true => (.ok true, [.statusCall, .info "No changes to commit"])
    | .ok false =>
      match d.add1 with
      | .error e => (.error e, [.statusCall, .add])
      | .ok _ =>
        match d.commit1 with
        | .error e => (.error e, [.statusCall, .add, .commitMsg message])
        | .ok _ =>
          match pushPhase d with
          | (.ok _, tr) =>
            (.ok true,
              [.statusCall, .add, .commitMsg message] ++ tr
                ++ [.succeed "Changes committed and pushed successfully"])
          | (.error e, tr) =>
            (.error e, [.statusCall, .add, .commitMsg message] ++ tr)

/-- GitClient.commitAndPush (common.ts lines 520-586): the outer catch turns
any error into the return value false after reporting it. -/
def commitAndPush (d : GitDriver) (message : String) : Bool × List GEvent :=
  match commitAndPushBody d message with
  | (.ok b, tr) => (b, tr)
  | (.error e, tr) =>
    (false, tr ++ [.failMsg "Failed to commit and push changes", .errorDetails e])

/-- The body of the try of GitClient.clone (common.ts lines 482-485),
parameterised by the driver outcome of the single clone call. -/
def cloneBody (r : Except String Unit) : Except String Bool :=
  match r with
  | .ok _ => .ok true
  | .error e => .error e

/-- GitClient.clone (common.ts lines 479-491): a direct passthrough whose
catch reports the failure and returns false. -/
def clone (r : Except String Unit) : Bool :=
  match cloneBody r with
  | .ok b => b
  | .error _ => false

/-- The body of the try of GitClient.pull (common.ts lines 499-509):
repository check returning false, then a merge pull (never rebase). -/
def pullBody (isRepo : Bool) (pullRes : Except String Unit) : Except String Bool :=
  if isRepo = false then .ok false
  else
    match pullRes with
    | .ok _ => .ok true
    | .error e => .error e

/-- GitClient.pull (common.ts lines 496-515): the catch returns false. -/
def pull (isRepo : Bool) (pullRes : Except String Unit) : Bool :=
  match pullBody isRepo pullRes with
  | .ok b => b
  | .error _ => false

/-- A git remote entry as returned by getRemotes. -/
structure Remote where
  name : String
  deriving DecidableEq

/-- Driver outcomes for the call sites of one configureWithToken
invocation. -/
structure ConfigDriver where
  setUrl : Except String Unit
  addConfig : Except String Unit
  getRemotes : Except String (List Remote)

/-- One hour in milliseconds, the default token lifetime (common.ts 616). -/
def defaultTokenLifeMs : Int := 3600 * 1000

/-- The body of the try of GitClient.configureWithToken (common.ts lines
595-628): set the authenticated remote URL, configure the credential cache,
record the expiry (the JS truthiness test makes an expiry of zero fall back
to the one hour default), then read the remotes back and fail (returning
false, not throwing) when no origin remote is found. The second component
is the tokenExpiry field after the call, which is only mutated once both
driver calls before it succeeded. -/
def configureWithTokenBody (d : ConfigDriver) (tokenExpiry : Option Int)
    (expiresAt : Option Int) (now : Int) : Except String Bool × Option Int :=
  match d.setUrl with
  | .error e => (.error e, tokenExpiry)
  | .ok _ =>
    match d.addConfig with
    | .error e => (.error e, tokenExpiry)
    | .ok _ =>
      let newExpiry : Option Int :=
        match expiresAt with
        | some e => if e = 0 then some (now + defaultTokenLifeMs) else some e
        | none => some (now + defaultTokenLifeMs)
      match d.getRemotes with
      | .error e => (.error e, newExpiry)
      | .ok remotes =>
        match remotes.find? (fun r => r.name == "origin") with
        | none => (.ok false, newExpiry)
        | some _ => (.ok true, newExpiry)

/-- GitClient.configureWithToken (common.ts lines 594-633): the catch turns
any error into the return value false. -/
def configureWithToken (d : ConfigDriver) (tokenExpiry : Option Int)
    (expiresAt : Option Int) (now : Int) : Bool × Option Int :=
  match configureWithTokenBody d tokenExpiry expiresAt now with
  | (.ok b, t) => (b, t)
  | (.error _, t) => (false, t)

/-! ## Push command orchestration (src/commands/push.ts)

The action body runs inside withErrorHandling, which catches any thrown
error and yields null; a thrown error is therefore modelled as the error
side of an Except, and the normal return value null or true as an
Option Bool. External calls are supplied as oracle outcomes. -/

/-- The git_info payload of a token issuance response (api.ts). -/
structure GitInfo where
  token : String
  repo_url : String
  auth_url : String
  expires_at : Int
  deriving DecidableEq

/-- The token issuance response consumed by getGitCredentials: its success
flag and its possibly absent git_info payload. -/
structure TokenResponse where
  success : Bool
  git_info : Option GitInfo
  deriving DecidableEq

/-- The two object shapes getGitCredentials can return (common.ts lines
199-213): the reuse marker object, or the git_info payload itself. -/
inductive CredsResult where
  | reusedCreds
  | gitInfoObj (gi : GitInfo)
  deriving DecidableEq

/-- JS property access creds.reused: true only on the reuse marker object;
the git_info payload has no reused property, so the access yields
undefined, which is falsy. -/
def jsReusedField : CredsResult → Bool
  | .reusedCreds => true
  | .gitInfoObj _ => false

/-- JS property access creds.git_info, as performed by push.ts line 121.
Neither shape returned by getGitCredentials carries a git_info property:
the reuse marker object has only success, valid and reused, and the other
shape is the git_info payload itself (token, repo_url, auth_url,
expires_at) — getGitCredentials already unwrapped tokenResponse.git_info
at common.ts line 213. The access therefore yields undefined in both
cases. -/
def jsGitInfoField : CredsResult → Option GitInfo
  | .reusedCreds => none
  | .gitInfoObj _ => none

/-- The error thrown by JS when destructuring undefined, as push.ts line
121 does with the result of the git_info property access. -/
def jsDestructureErrMsg : String :=
  "TypeError: cannot destructure token of undefined"

/-- Observable events of one push command invocation. -/
inductive PEvent where
  | schemaUpload
  | schemaFailLog (e : String)
  | continueLog
  | credsCheck
  | getGitTokenCall
  | configureCall (gi : GitInfo)
  | commitAndPushCall (msg : String)
  deriving DecidableEq

/-- getGitCredentials (common.ts lines 191-219): reuse when the cached
token is still valid, otherwise request a fresh token from the issuance
service; a failed request or a response without success or git_info yields
null, and the payload is returned otherwise. -/
def getGitCredentials (tokenValid : Bool)
    (getGitToken : Except String TokenResponse) :
    Option CredsResult × List PEvent :=
  if tokenValid then (some .reusedCreds, [])
  else
    match getGitToken with
    | .error _ => (none, [.getGitTokenCall])
    | .ok tr =>
      if tr.success then
        match tr.git_info with
        | some gi => (some (.gitInfoObj gi), [.getGitTokenCall])
        | none => (none, [.getGitTokenCall])
      else (none, [.getGitTokenCall])

/-- The push command options read by the action: the commit message (the
JS fallback applies when it is empty) and the two mode flags. -/
structure PushOptions where
  message : String
  schemaOnly : Bool
  codeOnly : Bool
  deriving DecidableEq

/-- The commit message passed to commitAndPush (push.ts line 151):
options.message || the generic fallback. -/
def pushCommitMessage (opts : PushOptions) : String :=
  if opts.message = "" then fallbackCommitMsg else opts.message

/-- Oracle outcomes for the external calls of one push command
invocation. statusClean is isClean() of git.getStatus(), whose errors are
rethrown by the source; the result of git.configureWithToken is ignored by
push.ts, and commitAndPush only selects the final console message, so
neither needs an outcome here. -/
structure PushEnv where
  isOngokuProj : Bool
  isRepo : Bool
  schemaPath : Option String
  projectName : String
  remoteUrl : String
  getProjects : Except String (List Project)
  readSchema : Except String String
  yamlLoad : String → Except String SchemaDoc
  jsonParse : String → Except String SchemaDoc
  pushProjectUpdates : Except String (Option String)
  tokenExpiry : Option Int
  now : Int
  getGitToken : Except String TokenResponse
  statusClean : Except String Bool

/-- The try block of the schema phase (push.ts lines 72-98): read the
schema file, decode it with the YAML to JSON fallback, then transmit it.
The transmission call is the only event; a failure of any step is the
error that reaches the catch. -/
def schemaStep (env : PushEnv) : Except String (Option String) × List PEvent :=
  match env.readSchema with
  | .error e => (.error e, [])
  | .ok content =>
    match decodeSchema env.yamlLoad env.jsonParse content with
    | .error e => (.error e, [])
    | .ok _ =>
      match env.pushProjectUpdates with
      | .error e => (.error e, [.schemaUpload])
      | .ok warn => (.ok warn, [.schemaUpload])

/-- The tail of the push action after credentials resolved (push.ts lines
128-160): check the status (its errors propagate), return null on a clean
tree, otherwise call commitAndPush and return true. -/
def codePhase (env : PushEnv) (opts : PushOptions) :
    Except String (Option Bool) × List PEvent :=
  match env.statusClean with
  | .error e => (.error e, [])
  | .ok true => (.ok none, [])
  | .ok false => (.ok (some true), [.commitAndPushCall (pushCommitMessage opts)])

/-- The credential and code sync phase (push.ts lines 113-160): obtain
credentials, then either skip configuration on reuse, or — on the fresh
path — access the git_info property of the result, which is undefined, so
the destructuring throws before configureWithToken can run. -/
def credAndCodePhase (env : PushEnv) (opts : PushOptions) :
    Except String (Option Bool) × List PEvent :=
  match getGitCredentials (isTokenValid env.tokenExpiry env.now) env.getGitToken with
  | (none, tr) => (.ok none, .credsCheck :: tr)
  | (some creds, tr) =>
    let head : List PEvent := .credsCheck :: tr
    if jsReusedField creds then
      let next := codePhase env opts
      (next.1, head ++ next.2)
    else
      match jsGitInfoField creds with
      | none => (.error jsDestructureErrMsg, head)
      | some gi =>
        let next := codePhase env opts
        (next.1, head ++ [.configureCall gi] ++ next.2)

/-- The push command action body (push.ts lines 32-161): project layout
and repository checks, the missing schema early exit in schema-only mode,
project resolution through findProject, the schema phase with its
failure policy, the schema-only stop, and the credential and code
phase. -/
def pushAction (env : PushEnv) (opts : PushOptions) :
    Except String (Option Bool) × List PEvent :=
  if env.isOngokuProj = false then (.ok none, [])
  else if env.isRepo = false then (.ok none, [])
  else if env.schemaPath.isNone && !opts.codeOnly && opts.schemaOnly then (.ok none, [])
  else
    let projectOpt : Option Project :=
      match env.getProjects with
      | .error _ => none
      | .ok ps => findProject ps env.projectName (some env.remoteUrl)
    match projectOpt with
    | none => (.ok none, [])
    | some _ =>
      if env.schemaPath.isSome && !opts.codeOnly then
        match schemaStep env with
        | (.ok _, str) =>
          if opts.schemaOnly then (.ok none, str)
          else
            let next := credAndCodePhase env opts
            (next.1, str ++ next.2)
        | (.error e, str) =>
          let str2 := str ++ [.schemaFailLog e]
          if opts.schemaOnly then (.ok none, str2)
          else
            let next := credAndCodePhase env opts
            (next.1, str2 ++ [.continueLog] ++ next.2)
      else
        if opts.schemaOnly then (.ok none, [])
        else credAndCodePhase env opts

/-! ## Concrete instances used by witnesses and counterexamples -/

/-- A sample identifier of the canonical UUID shape. -/
def uuidSample : String := "12345678-1234-1234-1234-123456789abc"

/-- A listing in which one project has the sample UUID as its id while a
different project has it as its name. -/
def projListC3 : List Project :=
  [⟨uuidSample, "beta", none⟩, ⟨"zzz", uuidSample, none⟩]

/-- A listing with one project hosted away from github.com whose path
segment equals the path of the local remote. -/
def cexProjects : List Project :=
  [⟨"a1b2", "other", some "https://git.example.com/org/proj-x"⟩]

/-- The local git remote URL of the non-github example. -/
def cexRemote : String := "https://git.example.com/org/proj-x"

/-- A listing with one github-hosted project whose name differs from the
derived directory name. -/
def ghProjects : List Project :=
  [⟨"id9", "other", some "https://github.com/org/proj-x"⟩]

/-- The local git remote URL of the github example. -/
def ghRemote : String := "https://github.com/org/proj-x"

/-- A YAML loader that rejects every document. -/
def yamlFailing : String → Except String SchemaDoc := fun _ => .error "yaml err"

/-- A JSON parser that accepts every document. -/
def jsonOkDoc : String → Except String SchemaDoc := fun s => .ok (.mk s)

/-- A driver in which the first push is rejected and the fast-forward-only
pull of the recovery then fails with a different error. -/
def divergedDriver : GitDriver :=
  ⟨true, .ok false, .ok (), .ok (), .error "push rejected", .ok (),
    .error "divergent history", .ok (), .ok (), .ok (), .ok ()⟩

/-- A driver over a clean working copy. -/
def cleanDriver : GitDriver :=
  ⟨true, .ok true, .ok (), .ok (), .ok (), .ok (), .ok (), .ok (), .ok (),
    .ok (), .ok ()⟩

/-- A driver whose status call itself fails. -/
def statusFailDriver : GitDriver :=
  ⟨true, .error "status boom", .ok (), .ok (), .ok (), .ok (), .ok (),
    .ok (), .ok (), .ok (), .ok ()⟩

/-- A token issuance payload as returned by the service. -/
def freshGitInfo : GitInfo :=
  ⟨"tok123", "https://github.com/org/p", "https://tok123@github.com/org/p", 1000000⟩

/-- A push environment with no cached credential, a successfully issued
fresh token, a resolvable project, a readable and decodable schema file,
a schema transmission that succeeds, and a dirty working tree. -/
def freshCredsEnv : PushEnv :=
  ⟨true, true, some "goku_schema/app.schema.yml", "proj-x", "",
    .ok [⟨"pid", "proj-x", none⟩], .ok "schema text",
    (fun _ => .ok (.mk "doc")), (fun _ => .ok (.mk "doc")), .ok none,
    none, 0, .ok ⟨true, some freshGitInfo⟩, .ok false⟩

/-- Options requesting a full push with an explicit commit message. -/
def plainOpts : PushOptions := ⟨"msg", false, false⟩

/-- A push environment identical to freshCredsEnv except that the schema
transmission fails and a valid cached credential is present. -/
def schemaFailEnv : PushEnv :=
  ⟨true, true, some "goku_schema/app.schema.yml", "proj-x", "",
    .ok [⟨"pid", "proj-x", none⟩], .ok "schema text",
    (fun _ => .ok (.mk "doc")), (fun _ => .ok (.mk "doc")), .error "network down",
    some 1000000, 0, .ok ⟨true, some freshGitInfo⟩, .ok false⟩

/-- Options requesting schema-only mode. -/
def schemaOnlyOpts : PushOptions := ⟨"msg", true, false⟩

/-! ## Theorems -/

/-- Claim C3: resolution applies its strategies in a fixed order with the
first match winning. When the derived name has the 8-4-4-4-12 hex UUID
shape and some listed project has that id, that project is returned; the
result always has the derived name as its id, so a simultaneous textual
name match on another project can never be returned. -/
theorem findProject_id_first (projects : List Project) (projectName : String)
    (remoteUrl : Option String)
    (hshape : isUuidShape projectName = true)
    (hid : (projects.find? (fun p => p.id == projectName)).isSome = true) :
    findProject projects projectName remoteUrl
        = projects.find? (fun p => p.id == projectName) ∧
      ∀ p, findProject projects projectName remoteUrl = some p →
        p.id = projectName := by
  obtain ⟨q, hq⟩ := Option.isSome_iff_exists.mp hid
  have h1 : findProject projects projectName remoteUrl
      = projects.find? (fun p => p.id == projectName) := by
    unfold findProject
    simp only [hshape, if_true, hq]
  refine ⟨h1, ?_⟩
  intro p hp
  rw [h1] at hp
  have hpq := List.find?_some hp
  simpa using hpq

/-- Witness for claim C3 at a concrete listing in which the sample UUID is
the id of the first project and the name of the second. -/
theorem findProject_id_first_witness :
    isUuidShape uuidSample = true ∧
    (projListC3.find? (fun p => p.id == uuidSample)).isSome = true ∧
    (findProject projListC3 uuidSample none
        = projListC3.find? (fun p => p.id == uuidSample) ∧
      ∀ p, findProject projListC3 uuidSample none = some p →
        p.id = uuidSample) :=
  ⟨by decide, by decide,
    findProject_id_first projListC3 uuidSample none (by decide) (by decide)⟩

/-- Claim C4: the credential validity check is a pure total function that
is true iff an expiry is recorded and the current instant lies strictly
before the expiry minus the five minute buffer; it is false at the instant
expiry minus buffer and true one millisecond earlier. The hypothesis that
now is nonnegative reflects that Date.now() is a nonnegative epoch
timestamp. -/
theorem isTokenValid_spec (t : Option Int) (now : Int) (hnow : 0 ≤ now) :
    (isTokenValid t now = true ↔ ∃ e, t = some e ∧ now < e - tokenBufferMs) ∧
    (∀ e : Int, 0 ≤ e - tokenBufferMs →
      isTokenValid (some e) (e - tokenBufferMs) = false) ∧
    (∀ e : Int, 0 ≤ e - tokenBufferMs - 1 →
      isTokenValid (some e) (e - tokenBufferMs - 1) = true) := by
  refine ⟨?_, ?_, ?_⟩
  · cases t with
    | none => simp [isTokenValid]
    | some e =>
      by_cases he : e = 0
      · subst he
        simp only [isTokenValid, if_pos rfl]
        constructor
        · intro h; exact absurd h (by simp)
        · rintro ⟨e1, he1, hlt⟩
          have : e1 = 0 := by exact_mod_cast (Option.some_inj.mp he1).symm
          subst this
          simp [tokenBufferMs] at hlt
          omega
      · simp only [isTokenValid, if_neg he, decide_eq_true_eq]
        constructor
        · intro h; exact ⟨e, rfl, h⟩
        · rintro ⟨e1, he1, hlt⟩
          have : e1 = e := Option.some_inj.mp he1.symm
          subst this
          exact hlt
  · intro e he
    by_cases h0 : e = 0
    · subst h0; simp [isTokenValid]
    · simp [isTokenValid, h0]
  · intro e he
    by_cases h0 : e = 0
    · subst h0
      exfalso
      simp [tokenBufferMs] at he
    · simp only [isTokenValid, if_neg h0, decide_eq_true_eq]
      omega

/-- Witness for claim C4 at a concrete expiry of 400000 ms, checked at
instant 99999, one millisecond before the cutoff 100000. -/
theorem isTokenValid_spec_witness :
    (0 : Int) ≤ 99999 ∧
    ((isTokenValid (some 400000) 99999 = true ↔
        ∃ e, (some 400000 : Option Int) = some e ∧ (99999 : Int) < e - tokenBufferMs) ∧
      (∀ e : Int, 0 ≤ e - tokenBufferMs →
        isTokenValid (some e) (e - tokenBufferMs) = false) ∧
      (∀ e : Int, 0 ≤ e - tokenBufferMs - 1 →
        isTokenValid (some e) (e - tokenBufferMs - 1) = true)) :=
  ⟨by norm_num, isTokenValid_spec (some 400000) 99999 (by norm_num)⟩

/-- Claim C6 counterexample: for a repository hosted away from github.com,
the path segment after the host is a substring of the local remote URL,
yet resolution finds nothing — the source splits on the github.com marker
only, so for other hosts the test degenerates to searching for the literal
string undefined. -/
theorem findProject_other_host_cex :
    pathAfterHost "https://git.example.com/org/proj-x" = "org/proj-x" ∧
    strIncludes cexRemote (pathAfterHost "https://git.example.com/org/proj-x") = true ∧
    findProject cexProjects "proj-x" (some cexRemote) = none := by
  refine ⟨by decide, by decide, by decide⟩

/-- Claim C6 amended: when step 1 yields no match and a non-empty remote
URL is present, resolution returns a project whenever some listed project
has a repository URL containing the github.com/ marker whose part after
the marker is a substring of the remote URL; repository URLs on other
hosts produce no such segment and cannot match by URL. -/
theorem findProject_url_github (projects : List Project) (projectName ru : String)
    (hstep1 : isUuidShape projectName = false ∨
      projects.find? (fun p => p.id == projectName) = none)
    (hru : ru ≠ "")
    (p : Project) (hp : p ∈ projects) (url : String)
    (hurl : p.github_repo_url = some url) (hne : url ≠ "")
    (seg : String) (hseg : githubPathSegment url = some seg)
    (hinc : strIncludes ru seg = true) :
    (findProject projects projectName (some ru)).isSome = true := by
  have hstep1n : (if isUuidShape projectName then
      projects.find? (fun p => p.id == projectName) else none) = none := by
    rcases hstep1 with h | h
    · rw [h]; rfl
    · split <;> simp [h]
  have hmatch : urlMatches ru p = true := by
    simp [urlMatches, hurl, hne, hseg, jsUndefToStr, hinc]
  have h2 : (projects.find? (urlMatches ru)).isSome = true := by
    rw [List.find?_isSome]
    exact ⟨p, hp, hmatch⟩
  obtain ⟨q, hq⟩ := Option.isSome_iff_exists.mp h2
  unfold findProject
  simp only [hstep1n, if_neg hru, hq]
  rfl

/-- Witness for the amended claim C6 at a concrete github-hosted project
whose name differs from the derived name, matched purely by URL. -/
theorem findProject_url_github_witness :
    (findProject ghProjects "proj-x" (some ghRemote)).isSome = true :=
  findProject_url_github ghProjects "proj-x" ghRemote (Or.inl (by decide))
    (by decide) ⟨"id9", "other", some "https://github.com/org/proj-x"⟩
    (by decide) "https://github.com/org/proj-x" rfl (by decide)
    "org/proj-x" (by decide) (by decide)

/-- Claim C7: schema decoding tries YAML first, falls back to JSON on YAML
failure, and a content invalid in both raises the schema format error. -/
theorem decodeSchema_fallback {α : Type} (y j : String → Except String α)
    (c : String) :
    (∀ v, y c = .ok v → decodeSchema y j c = .ok v) ∧
    (∀ e v, y c = .error e → j c = .ok v → decodeSchema y j c = .ok v) ∧
    (∀ e1 e2, y c = .error e1 → j c = .error e2 →
      decodeSchema y j c = .error schemaFormatErrorMsg) := by
  refine ⟨?_, ?_, ?_⟩ <;> intros <;> simp_all [decodeSchema]

/-- Witness for claim C7: a document every YAML load rejects and every
JSON parse accepts decodes successfully to the JSON value. -/
theorem decodeSchema_fallback_witness :
    yamlFailing "x" = .error "yaml err" ∧
    jsonOkDoc "x" = .ok (.mk "x") ∧
    decodeSchema yamlFailing jsonOkDoc "x" = .ok (.mk "x") :=
  ⟨rfl, rfl,
    (decodeSchema_fallback yamlFailing jsonOkDoc "x").2.1 "yaml err" (.mk "x") rfl rfl⟩

/-- Claim C1: when the initial push is rejected and the fast-forward-only
pull of the recovery protocol itself fails, the engine attempts the
best-effort stash restore and the error surfaced is the original push
error, never the pull error. -/
theorem commitAndPush_pull_failure_surfaces_push_error
    (d : GitDriver) (message pushErr pullErr : String)
    (hrepo : d.isRepo = true) (hdirty : d.status = .ok false)
    (hadd : d.add1 = .ok ()) (hcommit : d.commit1 = .ok ())
    (hpush : d.push1 = .error pushErr)
    (hstash : d.stash = .ok ()) (hpull : d.pullFF = .error pullErr) :
    commitAndPush d message =
      (false,
        [.statusCall, .add, .commitMsg message, .pushAttempt,
          .logMsg "Push failed, trying to pull changes first...",
          .stashSave, .pullFFOnly, .stashPop,
          .failMsg "Failed to commit and push changes", .errorDetails pushErr]) ∧
    GEvent.errorDetails pushErr ∈ (commitAndPush d message).2 ∧
    (pullErr ≠ pushErr → GEvent.errorDetails pullErr ∉ (commitAndPush d message).2) ∧
    GEvent.stashPop ∈ (commitAndPush d message).2 := by
  have heq : commitAndPush d message =
      (false,
        [.statusCall, .add, .commitMsg message, .pushAttempt,
          .logMsg "Push failed, trying to pull changes first...",
          .stashSave, .pullFFOnly, .stashPop,
          .failMsg "Failed to commit and push changes", .errorDetails pushErr]) := by
    simp [commitAndPush, commitAndPushBody, pushPhase, recoverySeq,
      hrepo, hdirty, hadd, hcommit, hpush, hstash, hpull]
  refine ⟨heq, ?_, ?_, ?_⟩
  · simp [heq]
  · intro hne; simp [heq, hne]
  · simp [heq]

/-- Witness for claim C1 at a concrete driver whose push is rejected and
whose fast-forward-only pull then fails with a different error. -/
theorem commitAndPush_pull_failure_witness :
    divergedDriver.isRepo = true ∧ divergedDriver.status = .ok false ∧
    divergedDriver.add1 = .ok () ∧ divergedDriver.commit1 = .ok () ∧
    divergedDriver.push1 = .error "push rejected" ∧
    divergedDriver.stash = .ok () ∧
    divergedDriver.pullFF = .error "divergent history" ∧
    (commitAndPush divergedDriver "m" =
        (false,
          [.statusCall, .add, .commitMsg "m", .pushAttempt,
            .logMsg "Push failed, trying to pull changes first...",
            .stashSave, .pullFFOnly, .stashPop,
            .failMsg "Failed to commit and push changes",
            .errorDetails "push rejected"]) ∧
      GEvent.errorDetails "push rejected" ∈ (commitAndPush divergedDriver "m").2 ∧
      ("divergent history" ≠ "push rejected" →
        GEvent.errorDetails "divergent history" ∉ (commitAndPush divergedDriver "m").2) ∧
      GEvent.stashPop ∈ (commitAndPush divergedDriver "m").2) :=
  ⟨rfl, rfl, rfl, rfl, rfl, rfl, rfl,
    commitAndPush_pull_failure_surfaces_push_error divergedDriver "m"
      "push rejected" "divergent history" rfl rfl rfl rfl rfl rfl rfl⟩

/-- The recovery sequence pushes at most once and stashes at most once,
whatever the driver outcomes. -/
theorem recoverySeq_counts (d : GitDriver) :
    ((recoverySeq d).2.count .pushAttempt ≤ 1) ∧
    ((recoverySeq d).2.count .stashSave ≤ 1) := by
  obtain ⟨ir, st, a1, c1, p1, sh, pf, sp, a2, c2, p2⟩ := d
  rcases sh with e | u <;> rcases pf with e2 | u2 <;> rcases sp with e3 | u3 <;>
    rcases a2 with e4 | u4 <;> rcases c2 with e5 | u5 <;> rcases p2 with e6 | u6 <;>
    simp [recoverySeq, List.count_cons, List.count_nil]

/-- The push phase pushes at most twice and stashes at most once. -/
theorem pushPhase_counts (d : GitDriver) :
    ((pushPhase d).2.count .pushAttempt ≤ 2) ∧
    ((pushPhase d).2.count .stashSave ≤ 1) := by
  have hr := recoverySeq_counts d
  rcases hp1 : d.push1 with e | u
  · rcases hrec : recoverySeq d with ⟨res, tr⟩
    rw [hrec] at hr
    rcases res with e2 | u2 <;>
      simp_all [pushPhase, hp1, hrec, List.count_append, List.count_cons,
        List.count_nil]
  · simp [pushPhase, hp1, List.count_cons, List.count_nil]

/-- Claim C2: the conflict recovery sub-protocol runs at most once per
commitAndPush call: the trace of any invocation contains at most two push
attempts and at most one stash, and the call terminates, being a total
function of the driver outcomes. -/
theorem commitAndPush_bounded_retry (d : GitDriver) (message : String) :
    ((commitAndPush d message).2.count .pushAttempt ≤ 2) ∧
    ((commitAndPush d message).2.count .stashSave ≤ 1) := by
  have hp := pushPhase_counts d
  by_cases hir : d.isRepo = false
  · simp [commitAndPush, commitAndPushBody, hir, List.count_cons, List.count_nil]
  · rcases hst : d.status with e | b
    · simp [commitAndPush, commitAndPushBody, hir, hst, List.count_cons,
        List.count_nil]
    · rcases b with _ | _
      · rcases ha : d.add1 with e | u
        · simp [commitAndPush, commitAndPushBody, hir, hst, ha,
            List.count_cons, List.count_nil]
        · rcases hc : d.commit1 with e | u
          · simp [commitAndPush, commitAndPushBody, hir, hst, ha, hc,
              List.count_cons, List.count_nil]
          · rcases hpp : pushPhase d with ⟨res, tr⟩
            rw [hpp] at hp
            rcases res with e2 | u2 <;>
              simp_all [commitAndPush, commitAndPushBody, hir, hst, ha, hc, hpp,
                List.count_append, List.count_cons, List.count_nil]
      · simp [commitAndPush, commitAndPushBody, hir, hst, List.count_cons,
          List.count_nil]

/-- Claim C9: commitAndPush on a clean working copy terminates successfully
with the distinct no-op outcome: it returns true with only the status call
and the no-changes notice in its trace, so no add, commit, push, stash or
success message occurs and no error is surfaced. -/
theorem commitAndPush_clean_noop (d : GitDriver) (message : String)
    (hrepo : d.isRepo = true) (hclean : d.status = .ok true) :
    commitAndPush d message = (true, [.statusCall, .info "No changes to commit"]) ∧
    GEvent.pushAttempt ∉ (commitAndPush d message).2 ∧
    GEvent.add ∉ (commitAndPush d message).2 ∧
    (∀ m, GEvent.commitMsg m ∉ (commitAndPush d message).2) ∧
    GEvent.stashSave ∉ (commitAndPush d message).2 ∧
    GEvent.succeed "Changes committed and pushed successfully"
      ∉ (commitAndPush d message).2 ∧
    (∀ e, GEvent.errorDetails e ∉ (commitAndPush d message).2) := by
  have heq : commitAndPush d message
      = (true, [.statusCall, .info "No changes to commit"]) := by
    simp [commitAndPush, commitAndPushBody, hrepo, hclean]
  refine ⟨heq, ?_, ?_, ?_, ?_, ?_, ?_⟩ <;> simp [heq]

/-- Witness for claim C9 at a concrete driver over a clean working copy. -/
theorem commitAndPush_clean_noop_witness :
    cleanDriver.isRepo = true ∧ cleanDriver.status = .ok true ∧
    (commitAndPush cleanDriver "m"
        = (true, [.statusCall, .info "No changes to commit"]) ∧
      GEvent.pushAttempt ∉ (commitAndPush cleanDriver "m").2 ∧
      GEvent.add ∉ (commitAndPush cleanDriver "m").2 ∧
      (∀ m, GEvent.commitMsg m ∉ (commitAndPush cleanDriver "m").2) ∧
      GEvent.stashSave ∉ (commitAndPush cleanDriver "m").2 ∧
      GEvent.succeed "Changes committed and pushed successfully"
        ∉ (commitAndPush cleanDriver "m").2 ∧
      (∀ e, GEvent.errorDetails e ∉ (commitAndPush cleanDriver "m").2)) :=
  ⟨rfl, rfl, commitAndPush_clean_noop cleanDriver "m" rfl rfl⟩

/-- Claim C10: each public git engine operation catches driver failures at
its boundary: whenever the body of clone, pull, commitAndPush or
configureWithToken ends in an error, the operation returns the boolean
false instead of propagating the error. -/
theorem gitOps_total_catch :
    (∀ r e, cloneBody r = .error e → clone r = false) ∧
    (∀ ir pr e, pullBody ir pr = .error e → pull ir pr = false) ∧
    (∀ d msg e tr, commitAndPushBody d msg = (.error e, tr) →
      (commitAndPush d msg).1 = false) ∧
    (∀ cd t ea n e t2, configureWithTokenBody cd t ea n = (.error e, t2) →
      (configureWithToken cd t ea n).1 = false) := by
  refine ⟨?_, ?_, ?_, ?_⟩
  · intro r e h; simp [clone, h]
  · intro ir pr e h; simp [pull, h]
  · intro d msg e tr h; simp [commitAndPush, h]
  · intro cd t ea n e t2 h; simp [configureWithToken, h]

/-- Witness for claim C10: concrete failing drivers for each of the four
operations, each returning false. -/
theorem gitOps_total_catch_witness :
    cloneBody (.error "boom") = .error "boom" ∧
    clone (.error "boom") = false ∧
    pullBody true (.error "boom") = .error "boom" ∧
    pull true (.error "boom") = false ∧
    commitAndPushBody statusFailDriver "m" = (.error "status boom", [.statusCall]) ∧
    (commitAndPush statusFailDriver "m").1 = false ∧
    configureWithTokenBody ⟨.error "boom", .ok (), .ok []⟩ none none 0
      = (.error "boom", none) ∧
    (configureWithToken ⟨.error "boom", .ok (), .ok []⟩ none none 0).1 = false :=
  ⟨rfl, gitOps_total_catch.1 (.error "boom") "boom" rfl,
    rfl, gitOps_total_catch.2.1 true (.error "boom") "boom" rfl,
    rfl, gitOps_total_catch.2.2.1 statusFailDriver "m" "status boom" [.statusCall] rfl,
    rfl, gitOps_total_catch.2.2.2 ⟨.error "boom", .ok (), .ok []⟩ none none 0
      "boom" none rfl⟩

/-- Claim C5, code defect: with no valid cached credential the push command
does obtain a fresh token from the issuance service, but push.ts then reads
the git_info property of the value getGitCredentials returned — which is
already the unwrapped payload and has no such property — so the
destructuring of undefined throws: configureWithToken is never invoked and
the commit and push step is never reached. Evaluated at a concrete
environment with an empty credential cache, a successful issuance, a
resolvable project and a dirty tree. -/
theorem pushCommand_fresh_creds_bug :
    (pushAction freshCredsEnv plainOpts).1 = .error jsDestructureErrMsg ∧
    PEvent.getGitTokenCall ∈ (pushAction freshCredsEnv plainOpts).2 ∧
    (∀ gi, PEvent.configureCall gi ∉ (pushAction freshCredsEnv plainOpts).2) ∧
    (∀ m, PEvent.commitAndPushCall m ∉ (pushAction freshCredsEnv plainOpts).2) := by
  have ht : (pushAction freshCredsEnv plainOpts).2
      = [.schemaUpload, .credsCheck, .getGitTokenCall] := by decide
  refine ⟨rfl, ?_, ?_, ?_⟩
  · simp [ht]
  · intro gi; simp [ht]
  · intro m; simp [ht]

/-- Every run of the credential and code phase starts with the credential
check event, whatever the oracle outcomes. -/
theorem credsCheck_in_credAndCodePhase (env : PushEnv) (opts : PushOptions) :
    PEvent.credsCheck ∈ (credAndCodePhase env opts).2 := by
  unfold credAndCodePhase
  rcases getGitCredentials (isTokenValid env.tokenExpiry env.now) env.getGitToken
    with ⟨o, tr⟩
  rcases o with _ | creds
  · simp
  · rcases creds with _ | gi <;> simp [jsReusedField, jsGitInfoField]

/-- Claim C8: a failure of the schema transmission step aborts the push
operation iff schema-only mode was requested. In schema-only mode the run
ends right after the logged failure, with no credential or commit event;
otherwise the failure is logged, the run continues, the credential phase
runs, and with a valid cached credential and a dirty tree the commit and
push step runs as well. -/
theorem pushCommand_schema_failure_policy (env : PushEnv) (opts : PushOptions)
    (hog : env.isOngokuProj = true) (hrepo : env.isRepo = true)
    (p : String) (hpath : env.schemaPath = some p)
    (hco : opts.codeOnly = false)
    (ps : List Project) (hps : env.getProjects = .ok ps)
    (pr : Project)
    (hfind : findProject ps env.projectName (some env.remoteUrl) = some pr)
    (content : String) (hread : env.readSchema = .ok content)
    (doc : SchemaDoc) (hyaml : env.yamlLoad content = .ok doc)
    (err : String) (hupd : env.pushProjectUpdates = .error err) :
    (opts.schemaOnly = true →
      pushAction env opts = (.ok none, [.schemaUpload, .schemaFailLog err]) ∧
      PEvent.credsCheck ∉ (pushAction env opts).2 ∧
      (∀ m, PEvent.commitAndPushCall m ∉ (pushAction env opts).2)) ∧
    (opts.schemaOnly = false →
      PEvent.schemaFailLog err ∈ (pushAction env opts).2 ∧
      PEvent.continueLog ∈ (pushAction env opts).2 ∧
      PEvent.credsCheck ∈ (pushAction env opts).2 ∧
      (isTokenValid env.tokenExpiry env.now = true → env.statusClean = .ok false →
        PEvent.commitAndPushCall (pushCommitMessage opts)
          ∈ (pushAction env opts).2)) := by
  have hstep : schemaStep env = (.error err, [.schemaUpload]) := by
    simp [schemaStep, hread, decodeSchema, hyaml, hupd]
  refine ⟨?_, ?_⟩
  · intro hso
    have heq : pushAction env opts = (.ok none, [.schemaUpload, .schemaFailLog err]) := by
      simp [pushAction, hog, hrepo, hpath, hco, hps, hfind, hstep, hso]
    refine ⟨heq, ?_, ?_⟩
    · simp [heq]
    · intro m; simp [heq]
  · intro hso
    have hcc := credsCheck_in_credAndCodePhase env opts
    refine ⟨?_, ?_, ?_, ?_⟩
    · simp [pushAction, hog, hrepo, hpath, hco, hps, hfind, hstep, hso]
    · simp [pushAction, hog, hrepo, hpath, hco, hps, hfind, hstep, hso]
    · simp [pushAction, hog, hrepo, hpath, hco, hps, hfind, hstep, hso, hcc]
    · intro htok hstat
      have hcred : credAndCodePhase env opts
          = (.ok (some true),
              [.credsCheck, .commitAndPushCall (pushCommitMessage opts)]) := by
        simp [credAndCodePhase, getGitCredentials, htok, jsReusedField,
          codePhase, hstat]
      simp [pushAction, hog, hrepo, hpath, hco, hps, hfind, hstep, hso, hcred]

/-- Witness for claim C8 at a concrete environment whose schema
transmission fails, applied in schema-only mode (the run aborts) and in
normal mode (the credential phase still runs). -/
theorem pushCommand_schema_failure_policy_witness :
    pushAction schemaFailEnv schemaOnlyOpts
      = (.ok none, [.schemaUpload, .schemaFailLog "network down"]) ∧
    PEvent.credsCheck ∈ (pushAction schemaFailEnv plainOpts).2 :=
  ⟨((pushCommand_schema_failure_policy schemaFailEnv schemaOnlyOpts rfl rfl
      "goku_schema/app.schema.yml" rfl rfl [⟨"pid", "proj-x", none⟩] rfl
      ⟨"pid", "proj-x", none⟩ rfl "schema text" rfl (.mk "doc") rfl
      "network down" rfl).1 rfl).1,
    ((pushCommand_schema_failure_policy schemaFailEnv plainOpts rfl rfl
      "goku_schema/app.schema.yml" rfl rfl [⟨"pid", "proj-x", none⟩] rfl
      ⟨"pid", "proj-x", none⟩ rfl "schema text" rfl (.mk "doc") rfl
      "network down" rfl).2 rfl).2.2.1⟩

end Ongoku
